import Mathlib

set_option maxRecDepth 100000

/-!
Shallow embedding of the zomato-spend-analyzer extraction engine
(`src/zomato_analyzer/parsers/zomato.py`, `src/zomato_analyzer/parsers/mbox_parser.py`,
`src/zomato_analyzer/models/order.py`, `src/zomato_analyzer/importer.py`)
together with theorems settling the spec claims.

Modelling conventions:
* Python `str` is embedded as `String` at the interfaces and `List Char` internally.
* Python `float` monetary values are embedded as exact decimals (`PyFloat`,
  an integer mantissa over a power of ten; IEEE-754 rounding is not modelled).
* Python `datetime` is embedded as `PyDateTime`: a wall-clock value in minutes
  together with an optional UTC offset in minutes (`none` = timezone-naive).
* Python regular expressions are embedded by a backtracking matcher (`reDo`)
  whose alternation/greediness/leftmost-search semantics follow `re.search`,
  and each source pattern is transliterated into a `RE` value, quoted in a
  comment next to it.
* Fallible Python code becomes `Option`/`Except`; a raised exception is an
  `Except.error` carrying the exception text.
-/

/-- Python whitespace class `\s` (ASCII part, which is all the inputs use). -/
def pySpace (c : Char) : Bool :=
  c = ' ' || c = '\t' || c = '\n' || c = '\r' || c = '\x0b' || c = '\x0c'

/-- Python word class `\w` (ASCII part). -/
def pyWord (c : Char) : Bool :=
  c.isAlpha || c.isDigit || c = '_'

/-- Python `str.lower` (ASCII case folding, which is all the inputs use). -/
def pyLower (l : List Char) : List Char := l.map Char.toLower

/-- Python substring test `needle in hay`. -/
def pyContains (needle : List Char) : List Char → Bool
  | [] => needle.isEmpty
  | hay@(_ :: t) => needle.isPrefixOf hay || pyContains needle t

/-- `MBoxParser.validate_email` (mbox_parser.py lines 75-83):
`any(['zomato' in subject.lower(), 'zomato' in from_addr.lower(),
      'order' in subject.lower() and 'zomato' in from_addr.lower()])`. -/
def validate_email (subject from_addr : String) : Bool :=
  let zomato_indicators : List Bool :=
    [ pyContains "zomato".data (pyLower subject.data),
      pyContains "zomato".data (pyLower from_addr.data),
      pyContains "order".data (pyLower subject.data)
        && pyContains "zomato".data (pyLower from_addr.data) ]
  zomato_indicators.any id

/-- The simpler admission predicate stated by claim C10 (from the claim's words,
for comparison with `validate_email`): provider name in subject OR in sender. -/
def validate_email_simple (subject from_addr : String) : Bool :=
  pyContains "zomato".data (pyLower subject.data)
    || pyContains "zomato".data (pyLower from_addr.data)

/-! ## A backtracking regular-expression engine

Python `re.search` semantics: positions are tried left to right; at each
position alternatives are tried in written order, greedy quantifiers prefer
longer and lazy quantifiers shorter matches, and the first success in this
backtracking order is the match.  Exactly one capturing group (group 1)
occurs in every pattern of the source, so the capture state is a single
`Option (List Char)`.  Every starred subpattern in the source consumes at
least one character per iteration, so iterations are required to make
progress; with that, fuel `2*|s|+2` can never run out on those patterns. -/

inductive RE where
  | eps
  | dollar
  | cls (p : Char → Bool)
  | seq (a b : RE)
  | alt (a b : RE)
  | starG (a : RE)
  | starL (a : RE)
  | group (a : RE)

/-- One layer of the backtracking matcher, in continuation-passing style:
`k` receives the rest of the input and the capture of group 1; `prev` is the
matcher at one unit less fuel, consulted when a star unfolds one iteration
(each iteration must consume input; at exhausted fuel a star matches zero
iterations). -/
def reDoStep
    (prev : RE → List Char → Option (List Char) →
      (List Char → Option (List Char) → Option α) → Option α) :
    RE → List Char → Option (List Char) →
      (List Char → Option (List Char) → Option α) → Option α
  | .eps, s, g, k => k s g
  | .dollar, s, g, k => if s = [] || s = ['\n'] then k s g else none
  | .cls p, s, g, k =>
    match s with
    | [] => none
    | c :: t => if p c then k t g else none
  | .seq a b, s, g, k => reDoStep prev a s g (fun s1 g1 => reDoStep prev b s1 g1 k)
  | .alt a b, s, g, k =>
    match reDoStep prev a s g k with
    | some r => some r
    | none => reDoStep prev b s g k
  | .starG a, s, g, k =>
    match prev a s g (fun s1 g1 =>
        if s1.length < s.length then prev (.starG a) s1 g1 k else none) with
    | some r => some r
    | none => k s g
  | .starL a, s, g, k =>
    match k s g with
    | some r => some r
    | none => prev a s g (fun s1 g1 =>
        if s1.length < s.length then prev (.starL a) s1 g1 k else none)
  | .group a, s, g, k => reDoStep prev a s g (fun s1 _ => k s1 (some (s.take (s.length - s1.length))))

/-- The backtracking matcher (at fuel 0 a star matches zero iterations:
the progress guard in `reDoStep` already rejects every iteration then). -/
def reDo : Nat → RE → List Char → Option (List Char) →
    (List Char → Option (List Char) → Option α) → Option α
  | 0 => reDoStep (fun _ s g k => k s g)
  | f + 1 => reDoStep (reDo f)

/-- `re.search` scanning: first position (left to right) with a match; returns
`some capture` on a match, `none` otherwise. -/
def reFindFrom (r : RE) (fuel : Nat) : List Char → Option (Option (List Char))
  | [] =>
    match reDo fuel r [] none (fun _ g => some g) with
    | some g => some g
    | none => none
  | s@(_ :: t) =>
    match reDo fuel r s none (fun _ g => some g) with
    | some g => some g
    | none => reFindFrom r fuel t

/-- `re.search(r, s)`, reduced to the group-1 capture of the leftmost match. -/
def reSearch (r : RE) (s : List Char) : Option (Option (List Char)) :=
  reFindFrom r (2 * s.length + 2) s

/-- Rest of the input after the match chosen at the current position
(used for substitutions, where the match extent matters). -/
def reMatchEnd (fuel : Nat) (r : RE) (s : List Char) : Option (List Char) :=
  reDo fuel r s none (fun s1 _ => some s1)

/-- `re.sub(r, repl, s)`: replace each non-overlapping leftmost match.
(The patterns substituted in the source never match the empty string;
a zero-width match would be skipped over.) -/
def reSubFuel (r : RE) (repl : List Char) : Nat → List Char → List Char
  | 0, s => s
  | _ + 1, [] => []
  | f + 1, s@(c :: t) =>
    match reMatchEnd (2 * s.length + 2) r s with
    | some s1 =>
      if s1.length < s.length then repl ++ reSubFuel r repl f s1
      else c :: reSubFuel r repl f t
    | none => c :: reSubFuel r repl f t

def reSub (r : RE) (repl : List Char) (s : List Char) : List Char :=
  reSubFuel r repl s.length s

/-! Pattern-building helpers.  All searches in `zomato.py` pass
`re.IGNORECASE`, so literal letters are matched case-insensitively. -/

/-- One literal character, case-insensitive (`re.IGNORECASE`). -/
def litCI (c : Char) : RE := .cls (fun d => d.toLower = c.toLower)

/-- One literal character, case-sensitive (for patterns compiled without
`re.IGNORECASE`). -/
def lit (c : Char) : RE := .cls (fun d => d = c)

/-- A literal string, case-insensitive. -/
def strCI (s : String) : RE := (s.data.map litCI).foldr .seq .eps

/-- Concatenation of a pattern list. -/
def cat (l : List RE) : RE := l.foldr .seq .eps

/-- Alternation in written order. -/
def alts : List RE → RE
  | [] => .eps
  | [r] => r
  | r :: rest => .alt r (alts rest)

/-- Greedy `+`. -/
def plusG (r : RE) : RE := .seq r (.starG r)

/-- Lazy `+?`. -/
def plusL (r : RE) : RE := .seq r (.starL r)

/-- Greedy `?` (prefers presence). -/
def optG (r : RE) : RE := .alt r .eps

/-! ## Character classes and patterns of `ZomatoEmailParser` (zomato.py lines 27-38) -/

/-- `\d` -/
def clsD : RE := .cls Char.isDigit

/-- `[^\d]` -/
def clsND : RE := .cls (fun c => !c.isDigit)

/-- `[^>]` -/
def clsNGt : RE := .cls (fun c => c != '>')

/-- `\s` -/
def clsWs : RE := .cls pySpace

/-- `\s+` -/
def wsP : RE := plusG clsWs

/-- `\s*` -/
def wsS : RE := .starG clsWs

/-- `[\d,]` -/
def clsDC : RE := .cls (fun c => c.isDigit || c = ',')

/-- `[A-Z0-9]` under `re.IGNORECASE` (so also `a-z`) -/
def clsAlnum : RE := .cls (fun c => c.isAlpha || c.isDigit)

/-- `[\s\w\-:]` -/
def clsSWDC : RE := .cls (fun c => pySpace c || pyWord c || c = '-' || c = ':')

/-- `[\s:]` -/
def clsWsColon : RE := .cls (fun c => pySpace c || c = ':')

/-- `[A-Za-z0-9\s&\-,.\']` (restaurant-name class, body pattern) -/
def clsRest : RE :=
  .cls (fun c => c.isAlpha || c.isDigit || pySpace c || c = '&' || c = '-' || c = ',' ||
    c = '.' || c = '\'')

/-- `[A-Za-z0-9\s&\-,.\'\"]` (restaurant-name class, subject pattern) -/
def clsRestQ : RE :=
  .cls (fun c => c.isAlpha || c.isDigit || pySpace c || c = '&' || c = '-' || c = ',' ||
    c = '.' || c = '\'' || c = '"')

/-- `.` (any character but a newline) -/
def clsDot : RE := .cls (fun c => c != '\n')

/-- `[a-z]` under `re.IGNORECASE` -/
def clsAl : RE := .cls Char.isAlpha

/-- `ORDER_ID_PATTERN = r'ORDER\s+ID:?\s*#?([A-Z0-9]{5,})'` -/
def orderIdPat : RE :=
  cat [strCI "ORDER", wsP, strCI "ID", optG (litCI ':'), wsS, optG (litCI '#'),
    .group (cat [clsAlnum, clsAlnum, clsAlnum, clsAlnum, clsAlnum, .starG clsAlnum])]

/-- `r'order\s+#?([A-Z0-9]+)'` (loose order-id pattern, zomato.py line 140) -/
def orderIdLoosePat : RE :=
  cat [strCI "order", wsP, optG (litCI '#'), .group (plusG clsAlnum)]

/-- `r'pro\s+plus\s+order\s+from\s+(.+)$'` (zomato.py line 150) -/
def proPlusPat : RE :=
  cat [strCI "pro", wsP, strCI "plus", wsP, strCI "order", wsP, strCI "from", wsP,
    .group (plusG clsDot), .dollar]

/-- `RESTAURANT_PATTERN =
r'(?:Thank you for ordering (?:from)?|from)\s+([A-Za-z0-9\s&\-,.\']+?)(?:\s+ORDER|\s+Delivered|$)'` -/
def restaurantPat : RE :=
  cat [.alt (.seq (strCI "Thank you for ordering ") (optG (strCI "from"))) (strCI "from"),
    wsP, .group (plusL clsRest),
    alts [.seq wsP (strCI "ORDER"), .seq wsP (strCI "Delivered"), .dollar]]

/-- `r'from\s+([A-Za-z0-9\s&\-,.\'\"]+)$'` (zomato.py line 170) -/
def restaurantSubjectPat : RE :=
  cat [strCI "from", wsP, .group (plusG clsRestQ), .dollar]

/-- `([\d,]+(?:\.\d{1,2})?)` — amount group of the total/paid patterns -/
def amountGroup2 : RE :=
  .group (.seq (plusG clsDC) (optG (cat [litCI '.', clsD, optG clsD])))

/-- `([\d,]+\.?\d*)` — amount group of the fee/discount patterns -/
def amountGroupLoose : RE :=
  .group (cat [plusG clsDC, optG (litCI '.'), .starG clsD])

/-- `TOTAL_AMOUNT_PATTERN =
r'(?:Total\s+(?:paid|amount|bill)?|Grand\s+Total|Total\s+Amount)[\s\w\-:]*?₹\s*([\d,]+(?:\.\d{1,2})?)'` -/
def totalAmountPat : RE :=
  cat [alts [.seq (strCI "Total") (.seq wsP (optG (alts [strCI "paid", strCI "amount", strCI "bill"]))),
      cat [strCI "Grand", wsP, strCI "Total"],
      cat [strCI "Total", wsP, strCI "Amount"]],
    .starL clsSWDC, litCI '₹', wsS, amountGroup2]

/-- `PAID_AMOUNT_PATTERN = r'Paid[\s:]*₹\s*([\d,]+(?:\.\d{1,2})?)'` -/
def paidAmountPat : RE :=
  cat [strCI "Paid", .starG clsWsColon, litCI '₹', wsS, amountGroup2]

/-- `DELIVERY_FEE_PATTERN = r'(?:Delivery\s+(?:Charges|Fee|Charge))[\s\w\-:]*?₹\s*([\d,]+\.?\d*)'` -/
def deliveryFeePat : RE :=
  cat [strCI "Delivery", wsP, alts [strCI "Charges", strCI "Fee", strCI "Charge"],
    .starL clsSWDC, litCI '₹', wsS, amountGroupLoose]

/-- `DISCOUNT_PATTERN = r'(?:Discount|Promo)[\s\w\-:]*?₹\s*([\d,]+\.?\d*)'` -/
def discountPat : RE :=
  cat [alts [strCI "Discount", strCI "Promo"], .starL clsSWDC, litCI '₹', wsS, amountGroupLoose]

/-- Month-name alternation `(?:Jan|Feb|Mar|Apr|May|Jun|Jul|Aug|Sep|Oct|Nov|Dec|January|February|March|April|May|June|July|August|September|October|November|December)` -/
def monthsAlt : RE :=
  alts (["Jan", "Feb", "Mar", "Apr", "May", "Jun", "Jul", "Aug", "Sep", "Oct", "Nov", "Dec",
    "January", "February", "March", "April", "May", "June", "July", "August", "September",
    "October", "November", "December"].map strCI)

/-- `[0-3]?\d` -/
def dayNum : RE := .seq (optG (.cls (fun c => '0' ≤ c && c ≤ '3'))) clsD

/-- `DATE_PATTERN = r'(?:Order|Ordered|Issued|31\s+Jul|[0-3]?\d\s+(?:<months>))[^\d]*?([0-3]?\d\s+(?:<months>)[^\d]*\d{4}[^>]*)'` -/
def datePat : RE :=
  cat [alts [strCI "Order", strCI "Ordered", strCI "Issued",
      cat [strCI "31", wsP, strCI "Jul"], cat [dayNum, wsP, monthsAlt]],
    .starL clsND,
    .group (cat [dayNum, wsP, monthsAlt, .starG clsND, clsD, clsD, clsD, clsD, .starG clsNGt])]

/-- `r'(\d{1,2}\s+(?:Jan|Feb|Mar|Apr|May|Jun|Jul|Aug|Sep|Oct|Nov|Dec)[a-z]*)'`
(simple date fallback, zomato.py line 264) -/
def simpleDatePat : RE :=
  .group (cat [clsD, optG clsD, wsP,
    alts (["Jan", "Feb", "Mar", "Apr", "May", "Jun", "Jul", "Aug", "Sep", "Oct", "Nov",
      "Dec"].map strCI), .starG clsAl])

/-- `r'<br\s*/?>'` -/
def brPat : RE := cat [litCI '<', strCI "br", wsS, optG (litCI '/'), litCI '>']

/-- `r'<p[^>]*>'` -/
def pOpenPat : RE := cat [litCI '<', strCI "p", .starG clsNGt, litCI '>']

/-- `r'</p>'` -/
def pClosePat : RE := strCI "</p>"

/-- `r'<td[^>]*>'` -/
def tdOpenPat : RE := cat [litCI '<', strCI "td", .starG clsNGt, litCI '>']

/-- `r'</td>'` -/
def tdClosePat : RE := strCI "</td>"

/-- `r'<tr[^>]*>'` -/
def trOpenPat : RE := cat [litCI '<', strCI "tr", .starG clsNGt, litCI '>']

/-- `r'</tr>'` -/
def trClosePat : RE := strCI "</tr>"

/-- `r'<[^>]+>'` — the two `re.sub` calls using this pattern (zomato.py
lines 121 and 235) pass no `re.IGNORECASE` flag, so its literals are
case-sensitive (for these symbol characters the two readings coincide). -/
def tagPat : RE := cat [lit '<', plusG clsNGt, lit '>']

/-- What one `<[^>]+>` match attempt at the head of `s` yields (the
specification `reMatchEnd` is proved to satisfy): a `'<'`, then the maximal
(greedy) run of non-`'>'` characters, which must be nonempty, then `'>'`;
the result is the rest after that `'>'`. -/
def tagSplit (s : List Char) : Option (List Char) :=
  match s with
  | [] => none
  | c :: rest =>
    if c = '<' then
      match rest.dropWhile (fun d => d != '>') with
      | _ :: v => if rest.takeWhile (fun d => d != '>') = [] then none else some v
      | [] => none
    else none

/-! ## Python string primitives used by the parser -/

/-- `str.strip()`: drop whitespace from both ends. -/
def pyStrip (l : List Char) : List Char :=
  (((l.dropWhile pySpace).reverse.dropWhile pySpace)).reverse

/-- `re.sub(r'\s+', ' ', s)`: replace every maximal whitespace run by one
space (a whitespace character is dropped when followed by more whitespace, so
each run contributes the single `' '` emitted at its last character). -/
def squashWs : List Char → List Char
  | [] => []
  | [c] => if pySpace c then [' '] else [c]
  | c :: d :: t =>
    if pySpace c then
      (if pySpace d then squashWs (d :: t) else ' ' :: squashWs (d :: t))
    else c :: squashWs (d :: t)

/-- Canonical form of whitespace-collapsed text: every whitespace character
is `' '`, and no whitespace character is immediately followed by another
(`squashWs` always produces this form, and is the identity on it). -/
def WsCanon (l : List Char) : Prop :=
  (∀ c ∈ l, pySpace c = true → c = ' ') ∧
    l.Chain' (fun a b => pySpace a = true → pySpace b = false)

/-- `re.sub(r'^[\-:\s]+', '', s)`: strip leading hyphen/colon/whitespace
(`^` with no MULTILINE flag anchors only at the start, so this is a
leading-run drop). -/
def stripLeadPunct (l : List Char) : List Char :=
  l.dropWhile (fun c => c = '-' || c = ':' || pySpace c)

/-- `str.replace(old, new)` for nonempty `old`: replace all non-overlapping
occurrences, scanning left to right. -/
def strReplaceFuel (old new : List Char) : Nat → List Char → List Char
  | 0, s => s
  | _ + 1, [] => []
  | f + 1, s@(c :: t) =>
    if old ≠ [] && old.isPrefixOf s then new ++ strReplaceFuel old new f (s.drop old.length)
    else c :: strReplaceFuel old new f t

def strReplace (old new s : List Char) : List Char :=
  strReplaceFuel old new s.length s

/-- `str.replace(',', '')` applied to a matched amount string. -/
def removeCommas (l : List Char) : List Char := l.filter (fun c => c != ',')

/-- An exact decimal number `num / 10 ^ exp`: the embedding of the Python
`float` amounts (which are decimal literals in the emails; IEEE rounding is
not modelled).  The representation is not canonical; `PyFloat.toRat` gives
the represented value. -/
structure PyFloat where
  num : Int
  exp : Nat
deriving DecidableEq, Repr

/-- The rational value of an exact decimal. -/
def PyFloat.toRat (x : PyFloat) : ℚ := (x.num : ℚ) / 10 ^ x.exp

/-- Python `x + y` on the decimal amounts, exactly. -/
def PyFloat.add (x y : PyFloat) : PyFloat :=
  let e := max x.exp y.exp
  ⟨x.num * 10 ^ (e - x.exp) + y.num * 10 ^ (e - y.exp), e⟩

/-- Python `x - y` on the decimal amounts, exactly. -/
def PyFloat.sub (x y : PyFloat) : PyFloat :=
  let e := max x.exp y.exp
  ⟨x.num * 10 ^ (e - x.exp) - y.num * 10 ^ (e - y.exp), e⟩

/-- Python `float(s)` on strings made of digits and at most one dot (all that
the comma-stripped amount groups can contain): needs at least one digit. -/
def pyFloatOfString (l : List Char) : Option PyFloat :=
  let intPart := l.takeWhile (fun c => c != '.')
  let rest := l.dropWhile (fun c => c != '.')
  let fracPart := rest.drop 1
  if l.any (fun c => !(c.isDigit || c = '.')) then none
  else if (l.filter (fun c => c = '.')).length > 1 then none
  else if !(l.any Char.isDigit) then none
  else
    let digitsVal : List Char → Nat := fun ds => ds.foldl (fun a c => a * 10 + (c.toNat - 48)) 0
    some ⟨(digitsVal intPart * 10 ^ fracPart.length + digitsVal fracPart : Nat), fracPart.length⟩

/-! ## `ZomatoEmailParser._convert_html_to_text` (zomato.py lines 103-123) -/

/-- Lines 107-111: decode the five HTML entities by successive `str.replace`. -/
def decodeEntities (l : List Char) : List Char :=
  strReplace "&#39;".data "'".data
    (strReplace "&quot;".data "\"".data
      (strReplace "&gt;".data ">".data
        (strReplace "&lt;".data "<".data
          (strReplace "&amp;".data "&".data l))))

/-- Lines 114-120: replace the structural tags `<br>`, `<p…>`, `</p>`, `<td…>`,
`</td>`, `<tr…>`, `</tr>` by a space, case-insensitively. -/
def structuralTagStep (l : List Char) : List Char :=
  reSub trClosePat " ".data
    (reSub trOpenPat " ".data
      (reSub tdClosePat " ".data
        (reSub tdOpenPat " ".data
          (reSub pClosePat " ".data
            (reSub pOpenPat " ".data
              (reSub brPat " ".data l))))))

/-- Line 121: `re.sub(r'<[^>]+>', '', body)` — strip all remaining tags. -/
def tagStripStep (l : List Char) : List Char := reSub tagPat [] l

/-- Lines 122-123: collapse whitespace and strip. -/
def wsCollapseStep (l : List Char) : List Char := pyStrip (squashWs l)

/-- `ZomatoEmailParser._convert_html_to_text`. -/
def convert_html_to_text (body : String) : List Char :=
  wsCollapseStep (tagStripStep (structuralTagStep (decodeEntities body.data)))

/-! ## Python `datetime` model

A `datetime` is a wall-clock value (in minutes) plus an optional UTC offset in
minutes (`none` = timezone-naive).  Header dates reaching the importer are
arbitrary such values; dates built by `strptime` from calendar components use
the order-preserving, injective minute encoding
`(((y*12 + (m-1))*32 + d)*24 + h)*60 + min` (see `toPyDateTime`). -/

structure PyDateTime where
  wall : Int
  off : Option Int
deriving DecidableEq, Repr

/-- `dt.astimezone(tz)` for an aware `dt` (every call site in the source guards
on awareness; for a naive value the `getD 0` default is never exercised). -/
def pyAstimezone (dt : PyDateTime) (newOff : Int) : PyDateTime :=
  ⟨dt.wall - dt.off.getD 0 + newOff, some newOff⟩

/-- The UTC instant of an aware `datetime`, for comparisons. -/
def utcVal (dt : PyDateTime) : Int := dt.wall - dt.off.getD 0

/-- `dt1 <= dt2` between aware datetimes. -/
def pyLe (dt1 dt2 : PyDateTime) : Bool := utcVal dt1 ≤ utcVal dt2

/-- Minutes per year in the calendar-component encoding. -/
def yearMinutes : Nat := 12 * 32 * 24 * 60

/-- `dt.year` under the component encoding (only ever applied to
`strptime`-produced values and to the year back-fill source). -/
def pyYear (dt : PyDateTime) : Nat := (dt.wall / (yearMinutes : Int)).toNat

/-! ## `datetime.strptime`, for the ten formats tried by
`ZomatoEmailParser._extract_order_date` (zomato.py lines 243-254).

Directives are parsed with the documented digit-count preferences of
CPython's `_strptime` (two digits when the two-digit alternative fits, else
one), month names case-insensitively, and the whole input must be consumed
("unconverted data remains" is a failure).  The parse is greedy without
cross-directive backtracking, which coincides with CPython on the strings the
date patterns can capture (the day/month tokens there are
whitespace-separated). -/

inductive FmtTok where
  | d | m | b | B | Y | H | I | M | p
  | ws
  | lit (c : Char)

/-- Calendar components accumulated by `strptime` (CPython defaults:
year 1900, month 1, day 1, midnight). -/
structure DateParts where
  year : Nat := 1900
  month : Nat := 1
  day : Nat := 1
  hour : Nat := 0
  minute : Nat := 0
  hour12 : Option Nat := none
  isPM : Option Bool := none
deriving DecidableEq, Repr

def isLeap (y : Nat) : Bool := (y % 4 = 0 && y % 100 != 0) || y % 400 = 0

def daysInMonth (y m : Nat) : Nat :=
  if m = 2 then (if isLeap y then 29 else 28)
  else if m = 4 || m = 6 || m = 9 || m = 11 then 30
  else 31

def digitVal (c : Char) : Nat := c.toNat - 48

/-- Parse a 1-2 digit number: take two digits when `ok2` accepts the pair,
else one digit when `ok1` accepts it. -/
def parse12 (ok2 : Nat → Nat → Bool) (ok1 : Nat → Bool) :
    List Char → Option (Nat × List Char)
  | c1 :: c2 :: t =>
    if c1.isDigit && c2.isDigit && ok2 (digitVal c1) (digitVal c2) then
      some (10 * digitVal c1 + digitVal c2, t)
    else if c1.isDigit && ok1 (digitVal c1) then some (digitVal c1, c2 :: t)
    else none
  | [c1] => if c1.isDigit && ok1 (digitVal c1) then some (digitVal c1, []) else none
  | [] => none

def monthStrs : List String :=
  ["Jan", "Feb", "Mar", "Apr", "May", "Jun", "Jul", "Aug", "Sep", "Oct", "Nov", "Dec"]

def monthFullStrs : List String :=
  ["January", "February", "March", "April", "May", "June", "July", "August",
   "September", "October", "November", "December"]

/-- Case-insensitive keyword match against a list, returning 1-based index. -/
def matchKeyword (ks : List String) (s : List Char) : Option (Nat × List Char) :=
  go ks 1 s
where
  go : List String → Nat → List Char → Option (Nat × List Char)
    | [], _, _ => none
    | k :: rest, i, s =>
      if (k.data.map Char.toLower).isPrefixOf (s.map Char.toLower) then
        some (i, s.drop k.length)
      else go rest (i + 1) s

def parseTok (tok : FmtTok) (parts : DateParts) (s : List Char) :
    Option (DateParts × List Char) :=
  match tok with
  | .d => (parse12 (fun a b => (a = 3 && b ≤ 1) || a = 1 || a = 2 || (a = 0 && 1 ≤ b))
      (fun a => 1 ≤ a) s).map (fun (v, r) => ({parts with day := v}, r))
  | .m => (parse12 (fun a b => (a = 1 && b ≤ 2) || (a = 0 && 1 ≤ b))
      (fun a => 1 ≤ a) s).map (fun (v, r) => ({parts with month := v}, r))
  | .H => (parse12 (fun a b => (a = 2 && b ≤ 3) || a ≤ 1) (fun _ => true) s).map
      (fun (v, r) => ({parts with hour := v}, r))
  | .I => (parse12 (fun a b => (a = 1 && b ≤ 2) || (a = 0 && 1 ≤ b)) (fun a => 1 ≤ a) s).map
      (fun (v, r) => ({parts with hour12 := some v}, r))
  | .M => (parse12 (fun a _ => a ≤ 5) (fun _ => true) s).map
      (fun (v, r) => ({parts with minute := v}, r))
  | .Y =>
    match s with
    | c1 :: c2 :: c3 :: c4 :: t =>
      if c1.isDigit && c2.isDigit && c3.isDigit && c4.isDigit then
        let y := 1000 * digitVal c1 + 100 * digitVal c2 + 10 * digitVal c3 + digitVal c4
        some ({parts with year := y}, t)
      else none
    | _ => none
  | .b => (matchKeyword monthStrs s).map (fun (v, r) => ({parts with month := v}, r))
  | .B => (matchKeyword monthFullStrs s).map (fun (v, r) => ({parts with month := v}, r))
  | .p => (matchKeyword ["AM", "PM"] s).map (fun (v, r) => ({parts with isPM := some (v = 2)}, r))
  | .ws =>
    match s with
    | c :: t => if pySpace c then some (parts, t.dropWhile pySpace) else none
    | [] => none
  | .lit c =>
    match s with
    | c1 :: t => if c1 = c then some (parts, t) else none
    | [] => none

def parseFmtFrom (parts : DateParts) : List FmtTok → List Char → Option DateParts
  | [], s => if s = [] then some parts else none
  | tok :: toks, s =>
    match parseTok tok parts s with
    | some (parts1, r) => parseFmtFrom parts1 toks r
    | none => none

/-- Resolve `%I`/`%p` into a 24-hour value as CPython does, then validate the
day against the month (`datetime(...)` raises for e.g. Feb 31). -/
def finishParts (parts : DateParts) : Option DateParts :=
  let hour := match parts.hour12, parts.isPM with
    | some i, some true => i % 12 + 12
    | some i, some false => i % 12
    | some i, none => i
    | none, _ => parts.hour
  let parts := {parts with hour := hour}
  if 1 ≤ parts.day && parts.day ≤ daysInMonth parts.year parts.month then some parts
  else none

/-- `datetime.strptime(s, fmt)`, to calendar components. -/
def pyStrptime (fmt : List FmtTok) (s : List Char) : Option DateParts :=
  match parseFmtFrom {} fmt s with
  | some parts => finishParts parts
  | none => none

/-- The component encoding of a naive `datetime` value (order-preserving and
injective on valid components; the importer never reads these values back). -/
def toPyDateTime (parts : DateParts) : PyDateTime :=
  ⟨(((parts.year * 12 + (parts.month - 1)) * 32 + parts.day) * 24 + parts.hour) * 60 +
    parts.minute, none⟩

/-- The ten formats of zomato.py lines 243-254, in order, each with the flag
`'%Y' not in date_format`. -/
def dateFormats : List (List FmtTok × Bool) :=
  [ ([.d, .ws, .b, .ws, .Y, .lit ',', .ws, .I, .lit ':', .M, .ws, .p], true),
    ([.d, .ws, .B, .ws, .Y, .lit ',', .ws, .I, .lit ':', .M, .ws, .p], true),
    ([.d, .lit '-', .m, .lit '-', .Y, .lit ',', .ws, .H, .lit ':', .M], true),
    ([.d, .lit '/', .m, .lit '/', .Y, .lit ',', .ws, .H, .lit ':', .M], true),
    ([.d, .ws, .b, .ws, .Y], true),
    ([.d, .ws, .B, .ws, .Y], true),
    ([.d, .ws, .b, .ws, .Y, .lit ',', .ws, .H, .lit ':', .M], true),
    ([.d, .ws, .B, .ws, .Y, .lit ',', .ws, .H, .lit ':', .M], true),
    ([.d, .ws, .b, .lit ',', .ws, .I, .lit ':', .M, .ws, .p], false),
    ([.d, .ws, .B, .lit ',', .ws, .I, .lit ':', .M, .ws, .p], false) ]

/-- `parsed.replace(year=y)`: swap the year, re-validating the day
(a `ValueError` here is caught by the format loop and treated as "try next"). -/
def replaceYear (parts : DateParts) (y : Nat) : Option DateParts :=
  if 1 ≤ parts.day && parts.day ≤ daysInMonth y parts.month then
    some {parts with year := y}
  else none

/-- The format loop of zomato.py lines 243-261: first format that parses wins;
formats without `%Y` get the year back-filled from `email_date` when present. -/
def tryDateFormats (date_str : List Char) (email_date : Option PyDateTime) :
    List (List FmtTok × Bool) → Option PyDateTime
  | [] => none
  | (fmt, hasYear) :: rest =>
    match pyStrptime fmt date_str with
    | some parts =>
      if !hasYear then
        match email_date with
        | some ed =>
          match replaceYear parts (pyYear ed) with
          | some parts1 => some (toPyDateTime parts1)
          | none => tryDateFormats date_str email_date rest
        | none => some (toPyDateTime parts)
      else some (toPyDateTime parts)
    | none => tryDateFormats date_str email_date rest

/-! ## Field extractors (`ZomatoEmailParser`, zomato.py lines 125-277) -/

/-- `ZomatoEmailParser._extract_order_id` (lines 125-144): `ORDER_ID_PATTERN`
against the subject, then the body, then the loose `order #<alnum>` pattern
against the subject. -/
def extract_order_id (subject : String) (body : List Char) : Option (List Char) :=
  match reSearch orderIdPat subject.data with
  | some (some g) => some (pyStrip g)
  | _ =>
    match reSearch orderIdPat body with
    | some (some g) => some (pyStrip g)
    | _ =>
      match reSearch orderIdLoosePat subject.data with
      | some (some g) => some (pyStrip g)
      | _ => none

/-- The candidate cleanup shared by all three restaurant branches
(lines 152-155 etc.): `strip()`, drop leading `[-:\s]+`, collapse whitespace,
`strip()`. -/
def cleanCandidate (g : List Char) : List Char :=
  pyStrip (squashWs (stripLeadPunct (pyStrip g)))

/-- The acceptance check `if 2 < len(restaurant) < 120: return restaurant`
(a failing check falls through to the next branch). -/
def acceptRestaurant (g : List Char) : Option (List Char) :=
  let r := cleanCandidate g
  if 2 < r.length && r.length < 120 then some r else none

/-- `ZomatoEmailParser._extract_restaurant` (lines 146-178): subject
"pro plus order from <name>", then the body `RESTAURANT_PATTERN`, then the
subject "from <name>$" pattern. -/
def extract_restaurant (body : List Char) (subject : String) : Option (List Char) :=
  let b1 := match reSearch proPlusPat subject.data with
    | some (some g) => acceptRestaurant g
    | _ => none
  match b1 with
  | some r => some r
  | none =>
    let b2 := match reSearch restaurantPat body with
      | some (some g) => acceptRestaurant g
      | _ => none
    match b2 with
    | some r => some r
    | none =>
      match reSearch restaurantSubjectPat subject.data with
      | some (some g) => acceptRestaurant g
      | _ => none

/-- One amount-pattern attempt: `match = re.search(pat, body); if match:
try: return float(match.group(1).replace(',', '')) except ValueError: pass`
— both "no match" and "matched but unparsable" yield `none`. -/
def tryAmountPattern (pat : RE) (body : List Char) : Option PyFloat :=
  match reSearch pat body with
  | some (some g) => pyFloatOfString (removeCommas g)
  | _ => none

/-- `ZomatoEmailParser._extract_total_amount` (lines 180-202): whitespace is
collapsed first (line 182), then the `Paid ₹` pattern is tried, then the
`Total/Grand Total/...` pattern. -/
def extract_total_amount (body : List Char) : Option PyFloat :=
  let body := squashWs body
  match tryAmountPattern paidAmountPat body with
  | some v => some v
  | none => tryAmountPattern totalAmountPat body

/-- `ZomatoEmailParser._extract_delivery_fee` (lines 204-215): pattern match
with 0.0 default. -/
def extract_delivery_fee (body : List Char) : PyFloat :=
  (tryAmountPattern deliveryFeePat body).getD ⟨0, 0⟩

/-- `ZomatoEmailParser._extract_discount` (lines 217-228): pattern match with
0.0 default. -/
def extract_discount (body : List Char) : PyFloat :=
  (tryAmountPattern discountPat body).getD ⟨0, 0⟩

/-- The tail of `_extract_order_date` (zomato.py lines 263-277): the simple
`<day> <month-abbrev>` fallback, then the email-date fallback, then
`raise ValueError("Unable to determine order date")`. -/
def dateFallback (body : List Char) (email_date : Option PyDateTime) :
    Except String PyDateTime :=
  let simple := match reSearch simpleDatePat body, email_date with
    | some (some g), some ed =>
      match pyStrptime [.d, .ws, .b] g with
      | some parts =>
        match replaceYear parts (pyYear ed) with
        | some parts1 => some (toPyDateTime parts1)
        | none => none
      | none => none
    | _, _ => none
  match simple with
  | some dt => .ok dt
  | none =>
    match email_date with
    | some ed => .ok ed
    | none => .error "Unable to determine order date"

/-- `ZomatoEmailParser._extract_order_date` (zomato.py lines 230-277):
normalize the body (lines 235-236), search `DATE_PATTERN`, try the ten
formats on the stripped capture, and otherwise run the fallbacks. -/
def extract_order_date (body : List Char) (email_date : Option PyDateTime) :
    Except String PyDateTime :=
  let body := pyStrip (squashWs (reSub tagPat " ".data body))
  match reSearch datePat body with
  | some (some g) =>
    let date_str := pyStrip g
    match tryDateFormats date_str email_date dateFormats with
    | some dt => .ok dt
    | none => dateFallback body email_date
  | _ => dateFallback body email_date

/-! ## The `Order` dataclass (models/order.py lines 7-22) -/

structure Order where
  order_id : String
  date : PyDateTime
  restaurant_name : String
  amount : PyFloat
  delivery_fee : PyFloat := ⟨0, 0⟩
  discount : PyFloat := ⟨0, 0⟩
  total_amount : PyFloat := ⟨0, 0⟩
  status : String := "completed"
  payment_method : Option String := none
  delivery_location : Option String := none
  order_items : Option String := none
  raw_email_body : Option String := none
  email_date : Option PyDateTime := none
deriving DecidableEq, Repr

/-- The `__init__` parameters the `Order` dataclass generates, in order, with
a flag for "has a default value" (models/order.py lines 10-22). -/
def orderInitParams : List (String × Bool) :=
  [ ("order_id", false), ("date", false), ("restaurant_name", false), ("amount", false),
    ("delivery_fee", true), ("discount", true), ("total_amount", true), ("status", true),
    ("payment_method", true), ("delivery_location", true), ("order_items", true),
    ("raw_email_body", true), ("email_date", true) ]

/-- The keyword arguments passed at the `Order(...)` call site
(zomato.py lines 84-95). -/
def orderCallKeywords : List String :=
  [ "order_id", "order_date", "restaurant_name", "amount", "delivery_fee", "discount",
    "total_amount", "status", "email_date", "raw_email_body" ]

/-- Whether the keyword call is accepted by the dataclass `__init__`: every
keyword must name a parameter, and every parameter without a default must be
supplied.  `order_date` names no parameter (the field is `date`), and `date`
is not supplied, so the call raises `TypeError`. -/
def orderCallOk : Bool :=
  orderCallKeywords.all (fun k => (orderInitParams.map Prod.fst).contains k) &&
    orderInitParams.all (fun p => p.2 || orderCallKeywords.contains p.1)

/-- The amount block of `extract_order` (zomato.py lines 69-78): total amount
(fail fast when absent), delivery fee and discount (defaulting to 0), and the
derived `amount = total_amount - delivery_fee + discount`. -/
def amounts_of (clean_body : List Char) :
    Option (PyFloat × PyFloat × PyFloat × PyFloat) :=
  match extract_total_amount clean_body with
  | none => none
  | some total_amount =>
    let delivery_fee := extract_delivery_fee clean_body
    let discount := extract_discount clean_body
    some (total_amount, delivery_fee, discount,
      (total_amount.sub delivery_fee).add discount)

/-- The body of `ZomatoEmailParser.extract_order` inside the `try:` block
(zomato.py lines 55-97).  An `Except.error` is an exception escaping the
block (the `ValueError` from date extraction, or the `TypeError` from the
`Order(...)` keyword call); `.ok none` is an explicit `return None`.
Pythonic truthiness: `if not order_id` / `if not restaurant_name` are falsy
for both `None` and the empty string. -/
def extract_order_unguarded (subject : String) (_from_addr : String) (body : String)
    (email_date : Option PyDateTime) : Except String (Option Order) :=
  let clean_body := convert_html_to_text body
  match extract_order_id subject clean_body with
  | none => .ok none
  | some order_id =>
    if order_id = [] then .ok none
    else
      match extract_restaurant clean_body subject with
      | none => .ok none
      | some restaurant_name =>
        if restaurant_name = [] then .ok none
        else
          match amounts_of clean_body with
          | none => .ok none
          | some (total_amount, delivery_fee, discount, amount) =>
            match extract_order_date clean_body email_date with
            | .error e => .error e
            | .ok order_date =>
              if orderCallOk then
                .ok (some
                  { order_id := String.mk order_id
                    date := order_date
                    restaurant_name := String.mk restaurant_name
                    amount := amount
                    delivery_fee := delivery_fee
                    discount := discount
                    total_amount := total_amount
                    status := "completed"
                    email_date := email_date
                    raw_email_body := some (String.mk (clean_body.take 1000)) })
              else .error "TypeError: unexpected keyword argument order_date"

/-- `ZomatoEmailParser.extract_order` (zomato.py lines 40-101): the
`try/except Exception` wrapper turns any escaping exception into `None`. -/
def extract_order (subject : String) (from_addr : String) (body : String)
    (email_date : Option PyDateTime) : Option Order :=
  match extract_order_unguarded subject from_addr body email_date with
  | .ok r => r
  | .error _ => none

/-! ## The incremental-import controller (`importer.py` lines 50-119)

The environment is made explicit: the parsed mailbox is a list of
`(subject, from_addr, body, email_dt)` records, the `last_sync.txt` watermark
store is an `Option PyDateTime` (`none` = file missing/empty/unparsable), and
`db.bulk_upsert_orders(orders, upsert=force)` is a function parameter whose
`Except.error` models a raised storage exception.  The Order Assembler is a
function parameter so that controller properties can be stated for any
assembler; `zomato_incremental_import` instantiates it with the real
`extract_order`. -/

/-- `IST = timezone(timedelta(hours=5, minutes=30))`, in minutes. -/
def IST : Int := 330

/-- Lines 71-77: a naive header date gets `tzinfo=IST`; an aware one is
converted to IST; then the result is converted to UTC. -/
def normalizeHeaderDt (dt : PyDateTime) : PyDateTime :=
  let dt1 := match dt.off with
    | none => {dt with off := some IST}
    | some _ => pyAstimezone dt IST
  pyAstimezone dt1 0

/-- `read_last_sync` (importer.py lines 22-37): a naive stored value gets
`tzinfo=utc`, an aware one is converted to UTC. -/
def read_last_sync (store : Option PyDateTime) : Option PyDateTime :=
  store.map (fun dt =>
    match dt.off with
    | none => {dt with off := some 0}
    | some _ => pyAstimezone dt 0)

/-- `write_last_sync` (importer.py lines 40-47): the value stored in the
watermark file, normalized to UTC. -/
def write_last_sync_val (dt : PyDateTime) : PyDateTime :=
  match dt.off with
  | none => {dt with off := some 0}
  | some _ => pyAstimezone dt 0

/-- The loop state of `incremental_import`: `orders`, `skipped`,
`newest_order_dt` (importer.py lines 61-63). -/
structure ImpState where
  orders : List Order
  skipped : Nat
  newest : Option PyDateTime
deriving DecidableEq, Repr

/-- One iteration of the email loop (importer.py lines 65-108).
`if not MBoxParser.validate_email(...)`: continue with nothing counted.
Lines 70-77 normalize the header date; lines 79-81 skip (counted) when it is
present and not newer than the watermark (`datetime` values are always truthy,
so `if email_dt and last_sync and email_dt <= last_sync` is exactly this).
When the assembler returns an order, line 88 reads `order.order_date` — but
the `Order` dataclass (models/order.py) defines the field `date`, not
`order_date`, so this attribute read raises `AttributeError`, and the rest of
the branch (lines 89-108, including the append and the newest-date tracking)
is unreachable. -/
def impStep (extractFn : String → String → String → Option PyDateTime → Option Order)
    (last_sync : Option PyDateTime) (st : ImpState)
    (e : String × String × String × Option PyDateTime) : Except String ImpState :=
  let (subject, from_addr, body, email_dt0) := e
  if !validate_email subject from_addr then .ok st
  else
    let email_dt := email_dt0.map normalizeHeaderDt
    let skip := match email_dt, last_sync with
      | some ed, some ls => pyLe ed ls
      | _, _ => false
    if skip then .ok {st with skipped := st.skipped + 1}
    else
      match extractFn subject from_addr body email_dt with
      | none => .ok st
      | some _ => .error "AttributeError: Order object has no attribute order_date"

/-- The email loop (importer.py line 65), propagating an uncaught exception. -/
def impLoop (extractFn : String → String → String → Option PyDateTime → Option Order)
    (last_sync : Option PyDateTime) (st : ImpState) :
    List (String × String × String × Option PyDateTime) → Except String ImpState
  | [] => .ok st
  | e :: rest =>
    match impStep extractFn last_sync st e with
    | .ok st1 => impLoop extractFn last_sync st1 rest
    | .error err => .error err

/-- `incremental_import` (importer.py lines 50-119) over an explicit
environment.  Returns the `(inserted, updated, skipped)` result (or the
escaping exception) together with the final contents of the watermark store.
Lines 110-111: no orders → return `(0, 0, skipped)` without touching the
store.  Line 113: the batch upsert; a raise propagates with the store
untouched.  Lines 115-116: the watermark is written only after the upsert
returned. -/
def incremental_import_with
    (extractFn : String → String → String → Option PyDateTime → Option Order)
    (emails : List (String × String × String × Option PyDateTime))
    (store : Option PyDateTime)
    (db : Bool → List Order → Except String (Nat × Nat × Nat)) (force : Bool) :
    Except String (Nat × Nat × Nat) × Option PyDateTime :=
  let last_sync := if force then none else read_last_sync store
  match impLoop extractFn last_sync ⟨[], 0, last_sync⟩ emails with
  | .error err => (.error err, store)
  | .ok st =>
    if st.orders.isEmpty then (.ok (0, 0, st.skipped), store)
    else
      match db force st.orders with
      | .error err => (.error err, store)
      | .ok (inserted, updated, skipped_updates) =>
        let store1 := match st.newest with
          | some nd => some (write_last_sync_val nd)
          | none => store
        (.ok (inserted, updated, st.skipped + skipped_updates), store1)

/-- The controller as shipped: the loop calls
`ZomatoEmailParser.extract_order` (importer.py line 83). -/
def zomato_incremental_import
    (emails : List (String × String × String × Option PyDateTime))
    (store : Option PyDateTime)
    (db : Bool → List Order → Except String (Nat × Nat × Nat)) (force : Bool) :
    Except String (Nat × Nat × Nat) × Option PyDateTime :=
  incremental_import_with extract_order emails store db force

/-! ## Helper lemmas -/

theorem orderCallOk_eq_false : orderCallOk = false := by decide

/-- The `try:` block of `extract_order` can never produce an order: it either
returns `None` early, raises the date `ValueError`, or reaches the
`Order(...)` call, which raises `TypeError` (`orderCallOk = false`). -/
theorem unguarded_ok_eq_none (subject from_addr body : String)
    (email_date : Option PyDateTime) (r : Option Order)
    (h : extract_order_unguarded subject from_addr body email_date = .ok r) :
    r = none := by
  unfold extract_order_unguarded at h
  rw [orderCallOk_eq_false] at h
  simp only [Bool.false_eq_true, if_false] at h
  cases h1 : extract_order_id subject (convert_html_to_text body) with
  | none =>
    rw [h1] at h; dsimp only at h
    exact (Except.ok.inj h).symm
  | some order_id =>
    rw [h1] at h; dsimp only at h
    by_cases h2 : order_id = []
    · rw [if_pos h2] at h
      exact (Except.ok.inj h).symm
    · rw [if_neg h2] at h
      cases h3 : extract_restaurant (convert_html_to_text body) subject with
      | none =>
        rw [h3] at h; dsimp only at h
        exact (Except.ok.inj h).symm
      | some restaurant_name =>
        rw [h3] at h; dsimp only at h
        by_cases h4 : restaurant_name = []
        · rw [if_pos h4] at h
          exact (Except.ok.inj h).symm
        · rw [if_neg h4] at h
          cases h5 : amounts_of (convert_html_to_text body) with
          | none =>
            rw [h5] at h; dsimp only at h
            exact (Except.ok.inj h).symm
          | some q =>
            obtain ⟨total_amount, delivery_fee, discount, amount⟩ := q
            rw [h5] at h; dsimp only at h
            cases h6 : extract_order_date (convert_html_to_text body) email_date with
            | error e =>
              rw [h6] at h; dsimp only at h
              exact Except.noConfusion h
            | ok order_date =>
              rw [h6] at h; dsimp only at h
              exact Except.noConfusion h

/-- `ZomatoEmailParser.extract_order` returns `None` on every input. -/
theorem extract_order_none (subject from_addr body : String)
    (email_date : Option PyDateTime) :
    extract_order subject from_addr body email_date = none := by
  unfold extract_order
  cases h : extract_order_unguarded subject from_addr body email_date with
  | ok r => exact unguarded_ok_eq_none subject from_addr body email_date r h
  | error e => rfl

/-! ## Claim theorems -/

/-- C10: for every pair of strings `(subject, sender)`, the admission filter
`validate_email(subject, sender)` is logically equivalent to the simpler
predicate ("zomato" occurs case-insensitively in the subject) OR ("zomato"
occurs case-insensitively in the sender): its third disjunct ("order" in
subject AND "zomato" in sender) is redundant. -/
theorem validate_email_eq_simple (subject from_addr : String) :
    validate_email subject from_addr = validate_email_simple subject from_addr := by
  unfold validate_email validate_email_simple
  cases h1 : pyContains "zomato".data (pyLower subject.data) <;>
    cases h2 : pyContains "zomato".data (pyLower from_addr.data) <;>
      simp [h1, h2]

/-- C2: for every input (subject, sender, body, optional email date),
`extract_order` returns `None`: the `Order` constructor is invoked with the
keyword argument `order_date`, which is not a field of the `Order` dataclass
(whose date field is named `date`), so construction raises a `TypeError` that
the surrounding catch-all converts into a `None` result. -/
theorem extract_order_always_none (subject from_addr body : String)
    (email_date : Option PyDateTime) :
    extract_order subject from_addr body email_date = none :=
  extract_order_none subject from_addr body email_date

/-- C3: `extract_order` never lets an exception reach its caller: whenever the
body of the `try:` block raises (`extract_order_unguarded = .error e` — in
particular the hard date failure, when no in-body date parses and no header
date is supplied), the assembler returns no order rather than raising. -/
theorem extract_order_catches_errors (subject from_addr body : String)
    (email_date : Option PyDateTime) (e : String)
    (h : extract_order_unguarded subject from_addr body email_date = .error e) :
    extract_order subject from_addr body email_date = none := by
  unfold extract_order
  rw [h]

/-- Witness for C3: a body with order id, restaurant and total but no parseable
date, and no header date — the unguarded body raises the date `ValueError`,
and `extract_order` returns `none`. -/
theorem extract_order_catches_errors_witness :
    extract_order_unguarded "order ABC12 from Pizza Hut" "" "Paid ₹300" none =
        .error "Unable to determine order date"
      ∧ extract_order "order ABC12 from Pizza Hut" "" "Paid ₹300" none = none :=
  ⟨rfl, extract_order_catches_errors "order ABC12 from Pizza Hut" "" "Paid ₹300" none
    "Unable to determine order date" rfl⟩

/-- C1 (evaluation at the scenario-A input): the extractor finds
`orderId = "ORD123456"`, `totalAmount = 440`, `deliveryFee = 40`,
`discount = 50`, `amount = 450` — but the restaurant extractor matches none of
its three patterns against the `Restaurant: Dominoes Pizza` label, and the
`Order(...)` call would raise `TypeError` in any case, so `extract_order`
returns `None` instead of the order the claim expects. -/
theorem scenarioA_returns_none :
    extract_order "Your Zomato order ORD123456 is confirmed" "noreply@zomato.com"
        "Order ID: ORD123456 Restaurant: Dominoes Pizza Total Amount: ₹440.00 Delivery Charges: ₹40.00 Promo Discount: -₹50.00"
        none = none
      ∧ extract_order_id "Your Zomato order ORD123456 is confirmed"
          (convert_html_to_text
            "Order ID: ORD123456 Restaurant: Dominoes Pizza Total Amount: ₹440.00 Delivery Charges: ₹40.00 Promo Discount: -₹50.00") =
        some "ORD123456".data
      ∧ extract_restaurant
          (convert_html_to_text
            "Order ID: ORD123456 Restaurant: Dominoes Pizza Total Amount: ₹440.00 Delivery Charges: ₹40.00 Promo Discount: -₹50.00")
          "Your Zomato order ORD123456 is confirmed" = none
      ∧ amounts_of
          (convert_html_to_text
            "Order ID: ORD123456 Restaurant: Dominoes Pizza Total Amount: ₹440.00 Delivery Charges: ₹40.00 Promo Discount: -₹50.00") =
        some (⟨44000, 2⟩, ⟨4000, 2⟩, ⟨5000, 2⟩, ⟨45000, 2⟩)
      ∧ PyFloat.toRat ⟨44000, 2⟩ = 440 ∧ PyFloat.toRat ⟨4000, 2⟩ = 40
      ∧ PyFloat.toRat ⟨5000, 2⟩ = 50 ∧ PyFloat.toRat ⟨45000, 2⟩ = 450 :=
  ⟨rfl, rfl, rfl, rfl, by norm_num [PyFloat.toRat], by norm_num [PyFloat.toRat],
    by norm_num [PyFloat.toRat], by norm_num [PyFloat.toRat]⟩

/-- C7: the total-amount extractor tries the `Paid ₹<amount>` pattern before
the `Total/Grand Total/... ₹<amount>` pattern (universally: a parsed Paid
match is the result, whatever the Total pattern would give, and concretely on
a body where both match); thousands separators are removed before numeric
parsing (`₹1,234.50 → 1234.50`); a matched-but-unparsable numeric falls
through to the next pattern (`₹,,` matches `[\d,]+` but fails `float`);
and `Paid ₹300` with no Total label yields 300.00. -/
theorem total_amount_precedence (b : List Char) (x : PyFloat)
    (h : tryAmountPattern paidAmountPat (squashWs b) = some x) :
    extract_total_amount b = some x
      ∧ extract_total_amount "Paid ₹300".data = some ⟨300, 0⟩
      ∧ PyFloat.toRat ⟨300, 0⟩ = 300
      ∧ extract_total_amount "Paid ₹300 and Grand Total ₹500".data = some ⟨300, 0⟩
      ∧ extract_total_amount "Paid ₹1,234.50".data = some ⟨123450, 2⟩
      ∧ PyFloat.toRat ⟨123450, 2⟩ = (1234.5 : ℚ)
      ∧ extract_total_amount "Paid ₹,, Grand Total ₹200".data = some ⟨200, 0⟩ := by
  refine ⟨?_, rfl, by norm_num [PyFloat.toRat], rfl, rfl, by norm_num [PyFloat.toRat], rfl⟩
  unfold extract_total_amount
  dsimp only
  rw [h]

/-- Witness for C7, at the scenario-D body `Paid ₹300`. -/
theorem total_amount_precedence_witness :
    tryAmountPattern paidAmountPat (squashWs "Paid ₹300".data) = some ⟨300, 0⟩
      ∧ extract_total_amount "Paid ₹300".data = some ⟨300, 0⟩ :=
  ⟨rfl, (total_amount_precedence "Paid ₹300".data ⟨300, 0⟩ rfl).1⟩

/-- With the shipped assembler, one loop iteration either leaves the state
unchanged or counts one skip: `extract_order` never returns an order, so the
order-handling branch is unreachable. -/
theorem impStep_extract_order (ls : Option PyDateTime) (st : ImpState)
    (e : String × String × String × Option PyDateTime) :
    impStep extract_order ls st e = .ok st ∨
      impStep extract_order ls st e = .ok {st with skipped := st.skipped + 1} := by
  obtain ⟨subject, from_addr, body, d0⟩ := e
  unfold impStep
  dsimp only
  by_cases hv : validate_email subject from_addr = true
  · simp only [hv, Bool.not_true, Bool.false_eq_true, if_false]
    by_cases hs : (match d0.map normalizeHeaderDt, ls with
      | some ed, some l => pyLe ed l
      | _, _ => false) = true
    · rw [if_pos hs]
      right
      rfl
    · rw [if_neg hs, extract_order_none]
      left
      rfl
  · rw [Bool.not_eq_true] at hv
    simp only [hv, Bool.not_false, if_true]
    left
    trivial

/-- With the shipped assembler, the loop always terminates normally and never
accumulates an order nor moves `newest_order_dt`. -/
theorem impLoop_extract_order (ls : Option PyDateTime) :
    ∀ (emails : List (String × String × String × Option PyDateTime)) (st : ImpState),
      ∃ st1, impLoop extract_order ls st emails = .ok st1 ∧
        st1.orders = st.orders ∧ st1.newest = st.newest := by
  intro emails
  induction emails with
  | nil => exact fun st => ⟨st, rfl, rfl, rfl⟩
  | cons e rest ih =>
    intro st
    rcases impStep_extract_order ls st e with h | h
    · obtain ⟨st1, h1, h2, h3⟩ := ih st
      refine ⟨st1, ?_, h2, h3⟩
      unfold impLoop
      rw [h]
      exact h1
    · obtain ⟨st1, h1, h2, h3⟩ := ih {st with skipped := st.skipped + 1}
      refine ⟨st1, ?_, h2, h3⟩
      unfold impLoop
      rw [h]
      exact h1

/-- C5: in every `force=false` run of the shipped controller the stored
watermark is left exactly as it was — which entails both halves of the claim:
after a run whose persistence step succeeds the watermark is ≥ the one read
at the start (they are equal), and after a failed persistence step it is
unchanged.  (The persistence step is in fact unreachable: `extract_order`
never produces an order, and were one produced, the `order.order_date` read
at importer.py line 88 would raise before anything was persisted.) -/
theorem watermark_unchanged
    (emails : List (String × String × String × Option PyDateTime))
    (store : Option PyDateTime)
    (db : Bool → List Order → Except String (Nat × Nat × Nat)) :
    (zomato_incremental_import emails store db false).2 = store := by
  unfold zomato_incremental_import incremental_import_with
  simp only [Bool.false_eq_true, if_false]
  obtain ⟨st1, h1, h2, h3⟩ :=
    impLoop_extract_order (read_last_sync store) emails ⟨[], 0, read_last_sync store⟩
  rw [h1]
  have he : st1.orders.isEmpty = true := by
    rw [h2]
    rfl
  simp only [he, if_true]

/-- C4 (amended): an email rejected by the admission filter contributes
nothing at all to a run — no order, and no count in any component of the
returned triple: the run's result is as if the email were absent
(importer.py lines 66-67 `continue` without touching any counter). -/
theorem filtered_email_contributes_nothing
    (extractFn : String → String → String → Option PyDateTime → Option Order)
    (subject from_addr body : String) (d0 : Option PyDateTime)
    (rest : List (String × String × String × Option PyDateTime))
    (store : Option PyDateTime)
    (db : Bool → List Order → Except String (Nat × Nat × Nat)) (force : Bool)
    (h : validate_email subject from_addr = false) :
    incremental_import_with extractFn ((subject, from_addr, body, d0) :: rest) store db force =
      incremental_import_with extractFn rest store db force := by
  unfold incremental_import_with
  dsimp only
  have hstep : ∀ ls st, impLoop extractFn ls st ((subject, from_addr, body, d0) :: rest) =
      impLoop extractFn ls st rest := by
    intro ls st
    conv =>
      lhs
      unfold impLoop
    have : impStep extractFn ls st (subject, from_addr, body, d0) = .ok st := by
      unfold impStep
      simp only [h, Bool.not_false, if_true]
    rw [this]
  rw [hstep]

/-- Witness for C4 (amended): a concrete filtered email dropped from a
concrete run without any effect on the result. -/
theorem filtered_email_contributes_nothing_witness :
    validate_email "hello" "bob@example.com" = false
      ∧ incremental_import_with extract_order
          [("hello", "bob@example.com", "nothing relevant", none)] none
          (fun _ _ => Except.ok (0, 0, 0)) false =
        incremental_import_with extract_order [] none
          (fun _ _ => Except.ok (0, 0, 0)) false :=
  ⟨rfl, filtered_email_contributes_nothing extract_order "hello" "bob@example.com"
    "nothing relevant" none [] none (fun _ _ => Except.ok (0, 0, 0)) false rfl⟩

/-- Counterexample for C4 as stated: a concrete run over exactly one email
that fails the admission filter returns `(inserted, updated, skipped) =
(0, 0, 0)` — the email is not counted as skipped, contradicting the claim
that it is. -/
theorem filtered_email_not_counted_skipped :
    (incremental_import_with extract_order
        [("hello", "bob@example.com", "nothing relevant", none)] none
        (fun _ _ => Except.ok (0, 0, 0)) false).1 = Except.ok (0, 0, 0)
      ∧ ¬ (incremental_import_with extract_order
          [("hello", "bob@example.com", "nothing relevant", none)] none
          (fun _ _ => Except.ok (0, 0, 0)) false).1 = Except.ok (0, 0, 1) := by
  constructor
  · rfl
  · intro hc
    rw [show (incremental_import_with extract_order
        [("hello", "bob@example.com", "nothing relevant", none)] none
        (fun _ _ => Except.ok (0, 0, 0)) false).1 = Except.ok (0, 0, 0) from rfl] at hc
    exact absurd (Except.ok.inj hc) (by decide)

/-- C6: in a `force=false` run with a watermark, (i) a validated email whose
normalized header date is present and not newer than the watermark is counted
as skipped and the loop state is otherwise untouched — for every assembler,
so the Order Assembler is never consulted for it; (ii) header-date
normalization treats a timezone-naive value as UTC+5:30 and converts to UTC
(wall value minus the offset, 330 minutes when naive, as a UTC-aware value);
(iii) with `force=true` the stored watermark is ignored entirely: the
returned `(inserted, updated, skipped)` result does not depend on it. -/
theorem watermark_skip_check
    (f : String → String → String → Option PyDateTime → Option Order)
    (ls : PyDateTime) (st : ImpState)
    (subject from_addr body : String) (d0 : PyDateTime)
    (h1 : validate_email subject from_addr = true)
    (h2 : pyLe (normalizeHeaderDt d0) ls = true) :
    impStep f (some ls) st (subject, from_addr, body, some d0) =
        .ok {st with skipped := st.skipped + 1}
      ∧ (∀ dt : PyDateTime, normalizeHeaderDt dt = ⟨dt.wall - dt.off.getD 330, some 0⟩)
      ∧ ∀ (g : String → String → String → Option PyDateTime → Option Order)
          (emails : List (String × String × String × Option PyDateTime))
          (store store1 : Option PyDateTime)
          (db : Bool → List Order → Except String (Nat × Nat × Nat)),
          (incremental_import_with g emails store db true).1 =
            (incremental_import_with g emails store1 db true).1 := by
  refine ⟨?_, ?_, ?_⟩
  · unfold impStep
    simp only [h1, Bool.not_true, Bool.false_eq_true, if_false, Option.map_some']
    rw [if_pos h2]
  · intro dt
    rcases dt with ⟨w, off⟩
    unfold normalizeHeaderDt pyAstimezone IST
    cases off with
    | none => simp
    | some o =>
      simp only [Option.getD, PyDateTime.mk.injEq]
      exact ⟨by omega, trivial⟩
  · intro g emails store store1 db
    unfold incremental_import_with
    simp only [if_true]
    cases impLoop g none ⟨[], 0, none⟩ emails with
    | error err => rfl
    | ok st1 =>
      dsimp only
      by_cases he : st1.orders.isEmpty = true
      · rw [if_pos he, if_pos he]
      · rw [if_neg he, if_neg he]
        cases db true st1.orders with
        | error err => rfl
        | ok triple =>
          obtain ⟨i1, u1, s1⟩ := triple
          cases st1.newest <;> rfl

/-- Witness for C6: a concrete validated email whose normalized header date
(wall 830 at offset +330 → UTC 500) is older than the watermark (UTC 1000)
is skipped without consulting the assembler. -/
theorem watermark_skip_check_witness :
    validate_email "zomato order" "x@y" = true
      ∧ pyLe (normalizeHeaderDt ⟨830, none⟩) ⟨1000, some 0⟩ = true
      ∧ impStep extract_order (some ⟨1000, some 0⟩) ⟨[], 0, none⟩
          ("zomato order", "x@y", "b", some ⟨830, none⟩) = .ok ⟨[], 1, none⟩ :=
  ⟨rfl, rfl,
    (watermark_skip_check extract_order ⟨1000, some 0⟩ ⟨[], 0, none⟩
      "zomato order" "x@y" "b" ⟨830, none⟩ rfl rfl).1⟩

/-- A non-whitespace head passes through `squashWs` unchanged. -/
theorem squashWs_cons_nonspace (c : Char) (hc : pySpace c = false) :
    ∀ t, squashWs (c :: t) = c :: squashWs t
  | [] => by simp [squashWs, hc]
  | d :: t => by simp [squashWs, hc]

/-- `squashWs` always produces the canonical whitespace form. -/
theorem squashWs_canon : ∀ l, WsCanon (squashWs l)
  | [] => ⟨by simp [squashWs], by simp [squashWs]⟩
  | [c] => by
    by_cases hc : pySpace c = true
    · refine ⟨?_, ?_⟩ <;> simp [squashWs, hc]
    · rw [Bool.not_eq_true] at hc
      refine ⟨?_, ?_⟩ <;> simp [squashWs, hc]
  | c :: d :: t => by
    by_cases hc : pySpace c = true
    · by_cases hd : pySpace d = true
      · have ih := squashWs_canon (d :: t)
        simpa [squashWs, hc, hd] using ih
      · have ih := squashWs_canon (d :: t)
        rw [Bool.not_eq_true] at hd
        have hrw : squashWs (c :: d :: t) = ' ' :: d :: squashWs t := by
          rw [show squashWs (c :: d :: t) = ' ' :: squashWs (d :: t) from by
            simp [squashWs, hc, hd], squashWs_cons_nonspace d hd]
        rw [hrw]
        rw [squashWs_cons_nonspace d hd] at ih
        refine ⟨?_, ?_⟩
        · intro x hx hsx
          rcases List.mem_cons.mp hx with hx1 | hx1
          · exact hx1
          · exact ih.1 x hx1 hsx
        · rw [List.chain'_cons]
          exact ⟨fun _ => hd, ih.2⟩
    · rw [Bool.not_eq_true] at hc
      have ih := squashWs_canon (d :: t)
      rw [show squashWs (c :: d :: t) = c :: squashWs (d :: t) from by
        simp [squashWs, hc]]
      refine ⟨?_, ?_⟩
      · intro x hx hsx
        rcases List.mem_cons.mp hx with hx1 | hx1
        · rw [hx1] at hsx
          rw [hc] at hsx
          exact absurd hsx (by simp)
        · exact ih.1 x hx1 hsx
      · rw [List.chain'_cons']
        refine ⟨?_, ih.2⟩
        intro y _ hy
        rw [hc] at hy
        exact absurd hy (by simp)

/-- `squashWs` is the identity on canonical whitespace form. -/
theorem squashWs_eq_of_canon : ∀ l, WsCanon l → squashWs l = l
  | [], _ => rfl
  | [c], h => by
    by_cases hc : pySpace c = true
    · have := h.1 c (by simp) hc
      simp [squashWs, hc, this]
    · rw [Bool.not_eq_true] at hc
      simp [squashWs, hc]
  | c :: d :: t, h => by
    have htl : WsCanon (d :: t) := ⟨fun x hx => h.1 x (by simp [hx]), h.2.tail⟩
    by_cases hc : pySpace c = true
    · have hceq : c = ' ' := h.1 c (by simp) hc
      have hd : pySpace d = false := (List.chain'_cons.mp h.2).1 hc
      rw [show squashWs (c :: d :: t) = ' ' :: squashWs (d :: t) from by
        simp [squashWs, hc, hd], squashWs_eq_of_canon (d :: t) htl, hceq]
    · rw [Bool.not_eq_true] at hc
      rw [show squashWs (c :: d :: t) = c :: squashWs (d :: t) from by
        simp [squashWs, hc], squashWs_eq_of_canon (d :: t) htl]

/-- Canonical form is preserved by dropping a whitespace prefix. -/
theorem wsCanon_dropWhile (p : Char → Bool) :
    ∀ l, WsCanon l → WsCanon (l.dropWhile p)
  | [], h => h
  | c :: t, h => by
    rw [List.dropWhile_cons]
    split
    · exact wsCanon_dropWhile p t ⟨fun x hx => h.1 x (by simp [hx]), h.2.tail⟩
    · exact h

/-- Canonical form is preserved by reversal (its adjacency condition is "no
two adjacent whitespace characters", which is symmetric). -/
theorem wsCanon_reverse (l : List Char) (h : WsCanon l) : WsCanon l.reverse := by
  refine ⟨fun x hx => h.1 x (List.mem_reverse.mp hx), ?_⟩
  rw [List.chain'_reverse]
  refine h.2.imp ?_
  intro a b hab hb
  by_cases ha : pySpace a = true
  · exact absurd hb ((hab ha) ▸ (by simp))
  · exact Bool.not_eq_true _ ▸ ha

/-- The head of `dropWhile p` fails `p`. -/
theorem dropWhile_head_false (p : Char → Bool) :
    ∀ (l : List Char) (a : Char) (t : List Char),
      l.dropWhile p = a :: t → p a = false
  | [], a, t => by
    intro h
    exact absurd h (by simp)
  | c :: l, a, t => by
    rw [List.dropWhile_cons]
    split
    · exact dropWhile_head_false p l a t
    · intro h
      injection h with h1 _
      rw [← h1]
      simp_all

/-- `dropWhile` is idempotent. -/
theorem dropWhile_dropWhile (p : Char → Bool) (l : List Char) :
    (l.dropWhile p).dropWhile p = l.dropWhile p := by
  cases h : l.dropWhile p with
  | nil => rfl
  | cons a t =>
    rw [List.dropWhile_cons, dropWhile_head_false p l a t h]
    simp

/-- `dropWhile` removes a prefix. -/
theorem dropWhile_append (p : Char → Bool) :
    ∀ l : List Char, ∃ pre, pre ++ l.dropWhile p = l
  | [] => ⟨[], rfl⟩
  | c :: t => by
    rw [List.dropWhile_cons]
    split
    · obtain ⟨pre, hp⟩ := dropWhile_append p t
      exact ⟨c :: pre, by rw [List.cons_append, hp]⟩
    · exact ⟨[], rfl⟩

/-- `str.strip()` is idempotent. -/
theorem pyStrip_idem (l : List Char) : pyStrip (pyStrip l) = pyStrip l := by
  have fact1 : ∀ x : List Char,
      (((x.dropWhile pySpace).reverse.dropWhile pySpace).reverse).dropWhile pySpace =
        ((x.dropWhile pySpace).reverse.dropWhile pySpace).reverse := by
    intro x
    cases hBr : ((x.dropWhile pySpace).reverse.dropWhile pySpace).reverse with
    | nil => rfl
    | cons a t =>
      obtain ⟨pre, hp⟩ := dropWhile_append pySpace (x.dropWhile pySpace).reverse
      have hAeq : x.dropWhile pySpace =
          ((x.dropWhile pySpace).reverse.dropWhile pySpace).reverse ++ pre.reverse := by
        rw [← List.reverse_append, hp, List.reverse_reverse]
      have hpa : pySpace a = false := by
        apply dropWhile_head_false pySpace x a (t ++ pre.reverse)
        rw [hAeq, hBr, List.cons_append]
      rw [List.dropWhile_cons, hpa]
      simp
  unfold pyStrip
  rw [fact1 l, List.reverse_reverse, dropWhile_dropWhile]

/-! Characterization of the tag-stripping substitution, towards its
idempotence: the backtracking matcher on `<[^>]+>` behaves like `tagSplit`,
and a left-to-right scan never leaves a matchable span in its output. -/

theorem reDo_eps (fuel : Nat) (s : List Char) (g : Option (List Char))
    (k : List Char → Option (List Char) → Option (List Char)) :
    reDo fuel .eps s g k = k s g := by
  cases fuel <;> rfl

theorem reDo_cls (fuel : Nat) (p : Char → Bool) (s : List Char)
    (g : Option (List Char)) (k : List Char → Option (List Char) → Option (List Char)) :
    reDo fuel (.cls p) s g k =
      (match s with
       | [] => none
       | c :: t => if p c then k t g else none) := by
  cases fuel <;> rfl

theorem reDo_seq (fuel : Nat) (a b : RE) (s : List Char) (g : Option (List Char))
    (k : List Char → Option (List Char) → Option (List Char)) :
    reDo fuel (.seq a b) s g k =
      reDo fuel a s g (fun s1 g1 => reDo fuel b s1 g1 k) := by
  cases fuel <;> rfl

/-- The greedy star over `[^>]` with a continuation that demands a `'>'`:
it consumes the maximal non-`'>'` run and succeeds exactly when a `'>'`
follows it. -/
theorem starB_tag (k : List Char → Option (List Char) → Option (List Char))
    (hk : ∀ s g, k s g =
      (match s with
       | e :: v => if e = '>' then some v else none
       | [] => none)) :
    ∀ (fuel : Nat) (t : List Char) (g : Option (List Char)), t.length < fuel →
      reDo fuel (.starG (.cls (fun d => d != '>'))) t g k =
        (match t.dropWhile (fun d => d != '>') with
         | _ :: v => some v
         | [] => none)
  | 0, _, _, h => absurd h (by omega)
  | fuel + 1, t, g, h => by
    show reDoStep (reDo fuel) (.starG (.cls (fun d => d != '>'))) t g k = _
    rw [reDoStep, reDo_cls]
    cases t with
    | nil =>
      rw [hk]
      rfl
    | cons d t3 =>
      dsimp only
      by_cases hd : (d != '>') = true
      · rw [if_pos hd, if_pos (by simp)]
        have hlt : t3.length < fuel := by
          simp only [List.length_cons] at h
          omega
        rw [starB_tag k hk fuel t3 g hlt, List.dropWhile_cons, if_pos hd]
        cases hdrop : t3.dropWhile (fun d => d != '>') with
        | nil =>
          dsimp only
          rw [hk]
          have hd2 : ¬ d = '>' := by simpa using hd
          simp [hd2]
        | cons e v => rfl
      · rw [if_neg hd]
        dsimp only
        rw [hk, List.dropWhile_cons, if_neg hd]
        have hd2 : d = '>' := by simpa using hd
        simp [hd2]

/-- The matcher on `<[^>]+>` computes `tagSplit`. -/
theorem reMatchEnd_tag (fuel : Nat) (s : List Char) (h : s.length < fuel) :
    reMatchEnd fuel tagPat s = tagSplit s := by
  unfold reMatchEnd
  show reDo fuel (.seq (.cls (fun d => d = '<'))
      (.seq (.seq (.cls (fun d => d != '>')) (.starG (.cls (fun d => d != '>'))))
        (.seq (.cls (fun d => d = '>')) .eps))) s none (fun s1 _ => some s1) = tagSplit s
  rw [reDo_seq, reDo_cls]
  cases s with
  | nil => rfl
  | cons c rest =>
    dsimp only
    by_cases hc : c = '<'
    · subst hc
      rw [if_pos (by decide)]
      rw [reDo_seq, reDo_seq, reDo_cls]
      cases rest with
      | nil => rfl
      | cons d t2 =>
        dsimp only
        by_cases hd : (d != '>') = true
        · rw [if_pos hd]
          have hkC : ∀ (s2 : List Char) (g2 : Option (List Char)),
              (fun s1 g1 => reDo fuel (.seq (.cls (fun d => d = '>')) .eps) s1 g1
                (fun s1 _ => (some s1 : Option (List Char)))) s2 g2 =
              (match s2 with
               | e :: v => if e = '>' then some v else none
               | [] => none) := by
            intro s2 g2
            dsimp only
            rw [reDo_seq, reDo_cls]
            cases s2 with
            | nil => rfl
            | cons e v =>
              dsimp only
              by_cases he : e = '>'
              · rw [if_pos (by simp [he]), if_pos he]
                rw [reDo_eps]
              · rw [if_neg (by simp [he]), if_neg he]
          have hlt : t2.length < fuel := by
            simp only [List.length_cons] at h
            omega
          rw [starB_tag _ hkC fuel t2 none hlt]
          have hne : ¬ (d :: List.takeWhile (fun d => d != '>') t2 = []) := by simp
          simp only [tagSplit, if_pos rfl, List.dropWhile_cons, List.takeWhile_cons, hd,
            if_true, hne, if_false]
        · rw [if_neg hd]
          have hd2 : d = '>' := by simpa using hd
          subst hd2
          rfl
    · rw [if_neg (by simp [hc])]
      simp [tagSplit, hc]

/-- A tag match consumes at least one character. -/
theorem tagSplit_length (s v : List Char) (h : tagSplit s = some v) :
    v.length < s.length := by
  unfold tagSplit at h
  split at h
  · exact absurd h (by simp)
  · rename_i c rest
    split at h
    · split at h
      · rename_i e v2 hdrop
        split at h
        · exact absurd h (by simp)
        · obtain rfl : v2 = v := Option.some.inj h
          obtain ⟨pre, hp⟩ := dropWhile_append (fun d => d != '>') rest
          rw [hdrop] at hp
          have hlen : rest.length = pre.length + (v2.length + 1) := by
            rw [← hp, List.length_append, List.length_cons]
          simp only [List.length_cons]
          omega
      · exact absurd h (by simp)
    · exact absurd h (by simp)

/-- A tag match contains a `'>'`. -/
theorem tagSplit_mem_gt (s v : List Char) (h : tagSplit s = some v) : '>' ∈ s := by
  unfold tagSplit at h
  split at h
  · exact absurd h (by simp)
  · rename_i c rest
    split at h
    · split at h
      · rename_i e v2 hdrop
        split at h
        · exact absurd h (by simp)
        · have he : (fun d => d != '>') e = false :=
            dropWhile_head_false _ rest e v2 hdrop
          have he2 : e = '>' := by simpa using he
          subst he2
          obtain ⟨pre, hp⟩ := dropWhile_append (fun d => d != '>') rest
          rw [hdrop] at hp
          apply List.mem_cons_of_mem
          rw [← hp]
          exact List.mem_append_right _ (List.mem_cons_self _ _)
      · exact absurd h (by simp)
    · exact absurd h (by simp)

/-- On `'>'`-free text the tag substitution is the identity (a match needs a
`'>'`). -/
theorem reSubFuel_gtFree : ∀ (f : Nat) (s : List Char), (∀ x ∈ s, x ≠ '>') →
    reSubFuel tagPat [] f s = s
  | 0, _, _ => rfl
  | _ + 1, [], _ => rfl
  | f + 1, c :: t, hfree => by
    show (match reMatchEnd (2 * (c :: t).length + 2) tagPat (c :: t) with
      | some s1 => if s1.length < (c :: t).length then [] ++ reSubFuel tagPat [] f s1
          else c :: reSubFuel tagPat [] f t
      | none => c :: reSubFuel tagPat [] f t) = c :: t
    rw [reMatchEnd_tag _ _ (by omega)]
    cases hsplit : tagSplit (c :: t) with
    | some v => exact absurd rfl (hfree '>' (tagSplit_mem_gt _ _ hsplit))
    | none =>
      show c :: reSubFuel tagPat [] f t = c :: t
      exact congrArg (c :: ·) (reSubFuel_gtFree f t (fun x hx => hfree x (by simp [hx])))

/-- On text none of whose suffixes has a tag match, the tag substitution is
the identity. -/
theorem reSubFuel_clean : ∀ (f : Nat) (s : List Char),
    (∀ t, t <:+ s → tagSplit t = none) → reSubFuel tagPat [] f s = s
  | 0, _, _ => rfl
  | _ + 1, [], _ => rfl
  | f + 1, c :: t, hclean => by
    show (match reMatchEnd (2 * (c :: t).length + 2) tagPat (c :: t) with
      | some s1 => if s1.length < (c :: t).length then [] ++ reSubFuel tagPat [] f s1
          else c :: reSubFuel tagPat [] f t
      | none => c :: reSubFuel tagPat [] f t) = c :: t
    rw [reMatchEnd_tag _ _ (by omega), hclean (c :: t) (List.suffix_refl _)]
    show c :: reSubFuel tagPat [] f t = c :: t
    exact congrArg (c :: ·) (reSubFuel_clean f t (fun t1 ht1 =>
      hclean t1 (ht1.trans ⟨[c], rfl⟩)))

/-- No suffix of the output of the tag substitution has a tag match: a
surviving `'<'` either has its very next character `'>'`, or is followed by
no `'>'` at all — a leftmost-scan splice can never create a new match. -/
theorem reSubFuel_output_clean : ∀ (f : Nat) (s : List Char), s.length ≤ f →
    ∀ t, t <:+ reSubFuel tagPat [] f s → tagSplit t = none
  | 0, s, hle, t, hsuf => by
    have hs : s = [] := List.length_eq_zero.mp (Nat.le_zero.mp hle)
    subst hs
    have ht : t = [] := List.suffix_nil.mp hsuf
    subst ht
    rfl
  | _ + 1, [], _, t, hsuf => by
    have ht : t = [] := List.suffix_nil.mp hsuf
    subst ht
    rfl
  | f + 1, c :: rest, hle, t, hsuf => by
    cases hsplit : tagSplit (c :: rest) with
    | some v =>
      have hv : v.length < (c :: rest).length := tagSplit_length _ _ hsplit
      have hstep : reSubFuel tagPat [] (f + 1) (c :: rest) = reSubFuel tagPat [] f v := by
        show (match reMatchEnd (2 * (c :: rest).length + 2) tagPat (c :: rest) with
          | some s1 => if s1.length < (c :: rest).length
              then [] ++ reSubFuel tagPat [] f s1
              else c :: reSubFuel tagPat [] f rest
          | none => c :: reSubFuel tagPat [] f rest) = _
        rw [reMatchEnd_tag _ _ (by omega), hsplit]
        show (if v.length < (c :: rest).length then [] ++ reSubFuel tagPat [] f v
            else c :: reSubFuel tagPat [] f rest) = _
        rw [if_pos hv, List.nil_append]
      rw [hstep] at hsuf
      exact reSubFuel_output_clean f v (by
        simp only [List.length_cons] at hle hv
        omega) t hsuf
    | none =>
      have hstep : reSubFuel tagPat [] (f + 1) (c :: rest) =
          c :: reSubFuel tagPat [] f rest := by
        show (match reMatchEnd (2 * (c :: rest).length + 2) tagPat (c :: rest) with
          | some s1 => if s1.length < (c :: rest).length
              then [] ++ reSubFuel tagPat [] f s1
              else c :: reSubFuel tagPat [] f rest
          | none => c :: reSubFuel tagPat [] f rest) = _
        rw [reMatchEnd_tag _ _ (by omega), hsplit]
      rw [hstep] at hsuf
      rcases List.suffix_cons_iff.mp hsuf with heq | hsuf2
      · subst heq
        by_cases hc : c = '<'
        · subst hc
          have hsplit1 : (match rest.dropWhile (fun d => d != '>') with
              | _ :: v => if rest.takeWhile (fun d => d != '>') = [] then none
                  else some v
              | [] => none) = (none : Option (List Char)) := hsplit
          cases hdrop : rest.dropWhile (fun d => d != '>') with
          | nil =>
            have hfree : ∀ x ∈ rest, x ≠ '>' := by
              intro x hx
              have hb := List.dropWhile_eq_nil_iff.mp hdrop x hx
              simpa using hb
            rw [reSubFuel_gtFree f rest hfree]
            exact hsplit
          | cons e v2 =>
            rw [hdrop] at hsplit1
            have hsplit2 : (if rest.takeWhile (fun d => d != '>') = [] then none
                else some v2) = (none : Option (List Char)) := hsplit1
            have htake : rest.takeWhile (fun d => d != '>') = [] := by
              by_contra hne
              rw [if_neg hne] at hsplit2
              exact absurd hsplit2 (by simp)
            cases rest with
            | nil => exact absurd hdrop (by simp)
            | cons d t2 =>
              have hd : ¬ ((d != '>') = true) := by
                intro hdt
                rw [List.takeWhile_cons, if_pos hdt] at htake
                exact absurd htake (by simp)
              have hd2 : d = '>' := by simpa using hd
              subst hd2
              cases f with
              | zero =>
                simp only [List.length_cons] at hle
                omega
              | succ f2 =>
                have hout2 : reSubFuel tagPat [] (f2 + 1) ('>' :: t2) =
                    '>' :: reSubFuel tagPat [] f2 t2 := by
                  show (match reMatchEnd (2 * ('>' :: t2).length + 2) tagPat ('>' :: t2) with
                    | some s1 => if s1.length < ('>' :: t2).length
                        then [] ++ reSubFuel tagPat [] f2 s1
                        else '>' :: reSubFuel tagPat [] f2 t2
                    | none => '>' :: reSubFuel tagPat [] f2 t2) = _
                  rw [reMatchEnd_tag _ _ (by omega)]
                  rfl
                rw [hout2]
                rfl
        · simp [tagSplit, hc]
      · exact reSubFuel_output_clean f rest (by
          simp only [List.length_cons] at hle
          omega) t hsuf2

/-- Step 3 of the normalizer, `re.sub(r'<[^>]+>', '', body)`, is idempotent. -/
theorem tagStrip_idem (l : List Char) :
    tagStripStep (tagStripStep l) = tagStripStep l := by
  unfold tagStripStep reSub
  exact reSubFuel_clean _ _ (fun t ht =>
    reSubFuel_output_clean l.length l (Nat.le_refl _) t ht)

/-- C9 (amended): the tag-stripping step `re.sub(r'<[^>]+>', '', body)` of the
text normalizer is idempotent, and so is the final whitespace-collapse-and-trim
step; but the HTML-entity-decoding step is not
(`decode(decode("&amp;amp;")) = "&" ≠ "&amp;" = decode("&amp;amp;")`), and
neither is the structural-tag step (`"<br<br>>" → "<br >" → " "`); the
normalizer itself is a total function by construction. -/
theorem normalizer_steps :
    (∀ l : List Char, tagStripStep (tagStripStep l) = tagStripStep l)
      ∧ (∀ l : List Char, wsCollapseStep (wsCollapseStep l) = wsCollapseStep l)
      ∧ decodeEntities (decodeEntities "&amp;amp;".data) ≠ decodeEntities "&amp;amp;".data
      ∧ structuralTagStep (structuralTagStep "<br<br>>".data) ≠
          structuralTagStep "<br<br>>".data := by
  refine ⟨tagStrip_idem, ?_, by decide, by decide⟩
  intro l
  unfold wsCollapseStep
  have hc : WsCanon (pyStrip (squashWs l)) := by
    unfold pyStrip
    exact wsCanon_reverse _ (wsCanon_dropWhile _ _
      (wsCanon_reverse _ (wsCanon_dropWhile _ _ (squashWs_canon l))))
  rw [squashWs_eq_of_canon _ hc, pyStrip_idem]

/-- Counterexample for C9 as stated: the HTML-entity-decoding step is not
idempotent — applying it twice to `"&amp;amp;"` gives `"&"`, while applying
it once gives `"&amp;"`. -/
theorem decode_entities_not_idempotent :
    decodeEntities (decodeEntities "&amp;amp;".data) ≠ decodeEntities "&amp;amp;".data := by
  decide
